import Mathlib

/-!
Verification of the exercise-to-TCX pipeline in `exercises.py` (Samsung Health
export converter).  The Python functions `find_nearest_time`,
`merge_location_and_live_data`, `create_trackpoint`, `create_lap`,
`build_xml`, `convert_activity_type`, `fetch_json_data`,
`prepare_exercise_data` and the `__main__` driver loop are embedded as
executable Lean definitions; Python exceptions are modelled by `Option`
(`none` = an exception escapes), and Python dictionaries (which preserve
insertion order) by association lists with in-place overwrite.
-/

namespace SamsungExercises

/-! ## Models of the Python built-ins used by the source -/

/-- Accumulating decimal-digit parser: `none` as soon as a non-digit occurs. -/
def parseDigitsAux : List Char → Nat → Option Nat
  | [], acc => some acc
  | c :: cs, acc =>
      if c.isDigit then parseDigitsAux cs (acc * 10 + (c.toNat - 48)) else none

/-- Parse a non-empty all-digit string to a `Nat`; `none` otherwise. -/
def parseDigits (cs : List Char) : Option Nat :=
  if cs = [] then none else parseDigitsAux cs 0

/-- Model of Python `int(s)` on the plain decimal integer literals that occur
in the CSV input: an optional minus sign followed by digits.  `none` models a
`ValueError` being raised. -/
def pyInt (s : String) : Option Int :=
  match s.toList with
  | '-' :: rest => (parseDigits rest).map (fun n => -(n : Int))
  | cs => (parseDigits cs).map (fun n => (n : Int))

/-- An exact decimal number, `mantissa / 10 ^ exp`: the ideal-arithmetic
model of the Python floats produced by `float(...)` on the decimal literals
of the CSV/JSON input, and of `int(duration) / 1000`. -/
structure Dec where
  mantissa : Int
  exp : Nat
deriving DecidableEq

/-- Fractional part handling for `pyFloat`: digits around at most one dot. -/
def pyFloatCore (cs : List Char) : Option Dec :=
  match cs.span (fun c => c != '.') with
  | (intPart, []) => (parseDigits intPart).map (fun n => ⟨(n : Int), 0⟩)
  | (intPart, _ :: fracPart) =>
      if fracPart.contains '.' then none
      else if intPart = [] ∧ fracPart = [] then none
      else
        match (if intPart = [] then some 0 else parseDigits intPart),
              (if fracPart = [] then some 0 else parseDigits fracPart) with
        | some ip, some fp =>
            some ⟨(ip : Int) * (10 : Int) ^ fracPart.length + (fp : Int),
              fracPart.length⟩
        | _, _ => none

/-- Model of Python `float(s)` on plain decimal literals (the CSV number
format): optional minus sign, digits, at most one dot.  `none` models a
`ValueError` being raised for an unparsable value such as an empty or
alphabetic string. -/
def pyFloat (s : String) : Option Dec :=
  match s.toList with
  | '-' :: rest => (pyFloatCore rest).map (fun d => ⟨-d.mantissa, d.exp⟩)
  | cs => pyFloatCore cs

/-- Model of Python `round(x, 0)` followed by `int(...)`: round half to even
(banker rounding, ideal-arithmetic model of the float version). -/
def pyRound (d : Dec) : Int :=
  let p : Int := (10 : Int) ^ d.exp
  let f : Int := Int.fdiv d.mantissa p
  let r : Int := d.mantissa - f * p
  if 2 * r < p then f
  else if p < 2 * r then f + 1
  else if f % 2 = 0 then f else f + 1

/-- Model of Python `int(x)` on a float: truncation toward zero. -/
def pyTrunc (d : Dec) : Int :=
  Int.tdiv d.mantissa ((10 : Int) ^ d.exp)

/-! ## Data model

Timestamps are epoch milliseconds (`Int`, Python integers).  Numeric sensor
values are carried as `Int`; the claims under verification only depend on
which fields are present, not on coordinate arithmetic. -/

/-- One position fix from the `location_data` JSON: `exercises.py` indexes
`entry["start_time"]`, `entry["latitude"]`, `entry["longitude"]` (so those
keys are required) and reads altitude with `entry.get("altitude")`. -/
structure LocationEntry where
  start_time : Int
  latitude : Int
  longitude : Int
  altitude : Option Int
deriving DecidableEq

/-- One instantaneous sample from the `live_data` JSON.  Every field is read
with `.get`, so each one models an optional dictionary key. -/
structure LiveEntry where
  start_time : Option Int := none
  StartTime : Option Int := none
  distance : Option Int := none
  cadence : Option Int := none
  heart_rate : Option Int := none
  speed : Option Int := none
deriving DecidableEq

/-- The value dictionary stored under a timestamp key of `merged_data`.
`time` models the formatted UTC string through the second count it renders
(the `%S.000Z` format truncates milliseconds).  For `altitude` the outer
`Option` models key presence and the inner one the possibly-`None` value:
`merge_location_and_live_data` always stores the `altitude` key for a
position fix, possibly holding `None`.  All other options model key
presence. -/
structure TPData where
  time : Int
  latitude : Option Int := none
  longitude : Option Int := none
  altitude : Option (Option Int) := none
  distance : Option Int := none
  cadence : Option Int := none
  heart_rate : Option Int := none
  speed : Option Int := none
deriving DecidableEq

/-- A `<Trackpoint>` element: the `Time` child is mandatory, the rest model
the optional `Position` (latitude, longitude), `HeartRateBpm` and `Cadence`
children, in schema order. -/
structure Trackpoint where
  time : Int
  position : Option (Int × Int) := none
  heart_rate : Option Int := none
  cadence : Option Int := none
deriving DecidableEq

/-- The `ns3:LX` extension block of a `<Lap>`. -/
structure LapExtensions where
  avgSpeed : Option String := none
  avgRunCadence : Option String := none
  maxRunCadence : Option String := none
deriving DecidableEq

/-- A `<Lap>` element; each `Option` field models presence of the
corresponding optional child tag, in schema order. -/
structure Lap where
  startTime : String
  totalTimeSeconds : Option Dec := none
  distanceMeters : Option String := none
  maximumSpeed : Option String := none
  calories : Option Int := none
  averageHeartRateBpm : Option Int := none
  maximumHeartRateBpm : Option Int := none
  intensity : String := "Active"
  triggerMethod : String := "Manual"
  extensions : Option LapExtensions := none
deriving DecidableEq

/-- The assembled TCX document: one activity holding one lap; `tracks` models
the list of `<Track>` children appended to the lap (the code appends at most
one). -/
structure TCXDoc where
  activity_id : String
  sport : String
  lap : Lap
  tracks : List (List Trackpoint)
deriving DecidableEq

/-- One row of the exercise summary CSV (the fields `prepare_exercise_data`
reads).  An absent `start_time` is modelled by the empty string, exactly the
values the driver loop skips. -/
structure Exercise where
  datauuid : String
  start_time : String
  exercise_type : String
  duration : String
  distance : String
  total_calorie : String
  mean_heart_rate : String
  max_heart_rate : String
  mean_speed : String
  max_speed : String
  mean_cadence : String
  max_cadence : String
deriving DecidableEq

/-! ## Python dictionaries as insertion-ordered association lists -/

/-- `merged_data`: a Python dict from timestamp to track-point fields,
modelled with its insertion order. -/
abbrev MergedDict := List (Int × TPData)

/-- Membership test, `ts in merged_data`. -/
def dictContains (d : MergedDict) (k : Int) : Bool :=
  d.any (fun p => p.1 == k)

/-- The keys in insertion order (what `for d in data` iterates). -/
def dictKeys (d : MergedDict) : List Int :=
  d.map (fun p => p.1)

/-- `d[k] = v`: overwrite in place if the key exists, else append (Python
3.7+ dict semantics). -/
def dictSet : MergedDict → Int → TPData → MergedDict
  | [], k, v => [(k, v)]
  | p :: rest, k, v =>
      if p.1 = k then (k, v) :: rest else p :: dictSet rest k v

/-- `d[k].update(...)`: rewrite the value stored at `k` in place (the key is
always present where the source does this). -/
def dictUpdate : MergedDict → Int → (TPData → TPData) → MergedDict
  | [], _, _ => []
  | p :: rest, k, f =>
      if p.1 = k then (p.1, f p.2) :: rest else p :: dictUpdate rest k f

/-! ## The merger (`merge_location_and_live_data`, lines 260-307) -/

/-- The seconds rendered by
`datetime.fromtimestamp(ts / 1000, utc).strftime("%Y-%m-%dT%H:%M:%S.000Z")`:
milliseconds are floor-divided away (the format prints a literal `.000`). -/
def format_time (ts : Int) : Int := ts.fdiv 1000

/-- The dict built for one position fix (lines 285-290): `time`, `latitude`
and `longitude` are always stored, and the `altitude` key is always present,
holding `entry.get("altitude")` (possibly `None`). -/
def location_entry_data (e : LocationEntry) : TPData :=
  { time := format_time e.start_time
    latitude := some e.latitude
    longitude := some e.longitude
    altitude := some e.altitude }

/-- Loop body of the first pass: `merged_data[entry["start_time"]] = {...}`,
so a later fix with the same timestamp fully overwrites an earlier one. -/
def insert_location (d : MergedDict) (e : LocationEntry) : MergedDict :=
  dictSet d e.start_time (location_entry_data e)

/-- First pass of the merger over the position fixes (lines 281-290). -/
def location_pass (locationdata : List LocationEntry) : MergedDict :=
  List.foldl insert_location [] locationdata

/-- Insert into an ascending-sorted list, keeping it sorted. -/
def insertSorted (x : Int) : List Int → List Int
  | [] => [x]
  | y :: ys => if x ≤ y then x :: y :: ys else y :: insertSorted x ys

/-- Model of Python `sorted` on integers (line 293): the ascending
rearrangement, which is unique for a list of integers. -/
def pySorted (l : List Int) : List Int :=
  List.foldr insertSorted [] l

/-- The comparison step of `min(timestamps, key=lambda t: abs(t - ts))`:
keep the current best unless the candidate is strictly closer, so the first
minimum encountered wins. -/
def nearer_to (ts best c : Int) : Int :=
  if |c - ts| < |best - ts| then c else best

/-- `find_nearest_time` (lines 260-267): `min` over the candidate timestamps
by absolute distance to `ts`.  `none` models the `ValueError` Python `min`
raises on an empty sequence. -/
def find_nearest_time (ts : Int) (timestamps : List Int) : Option Int :=
  match timestamps with
  | [] => none
  | t :: rest => some (List.foldl (nearer_to ts) t rest)

/-- Python truthiness of an optional numeric value: present and nonzero. -/
def truthy : Option Int → Bool
  | some v => v != 0
  | none => false

/-- Payload attachment (lines 304-305): copy each of `distance`, `cadence`,
`heart_rate`, `speed` into the entry when the sample holds a truthy value,
overwriting a previous value.  The mutation
`entry["heart_rate"] = int(entry["heart_rate"]) if "heart_rate" in entry else None`
on line 299 is the identity in this model (the value is already an integer,
and a key holding `None` is as falsy as an absent key). -/
def live_payload (e : LiveEntry) (m : TPData) : TPData :=
  { m with
    distance := if truthy e.distance then e.distance else m.distance
    cadence := if truthy e.cadence then e.cadence else m.cadence
    heart_rate := if truthy e.heart_rate then e.heart_rate else m.heart_rate
    speed := if truthy e.speed then e.speed else m.speed }

/-- Timestamp-key resolution (line 295):
`entry.get("start_time") or entry.get("StartTime")`.  Python `or` tests
truthiness, so a present-but-zero `start_time` falls through to the
alternate key, and `none` results when neither key yields a truthy value or
a final zero stands alone under the alternate key only if absent. -/
def resolve_timestamp (e : LiveEntry) : Option Int :=
  match e.start_time with
  | some t => if t = 0 then e.StartTime else some t
  | none => e.StartTime

/-- Key selection for one sample (line 296):
`ts = ts if ts in merged_data else find_nearest_time(ts, timestamps)`.
`none` models the `ValueError` of `min` over an empty candidate list. -/
def attach_target (timestamps : List Int) (merged : MergedDict) (ts0 : Int) :
    Option Int :=
  if dictContains merged ts0 then some ts0
  else find_nearest_time ts0 timestamps

/-- Attachment of one sample at its selected key (lines 298-305): create a
bare `{"time": time}` entry when the key is absent, then update the entry at
the key with the truthy payload values. -/
def attach_at (merged : MergedDict) (entry : LiveEntry) (ts : Int) : MergedDict :=
  let d := if dictContains merged ts then merged
           else dictSet merged ts { time := format_time ts }
  dictUpdate d ts (live_payload entry)

/-- Loop body of the second pass (lines 294-305) for one live-data sample.
`none` models an escaping exception: with no resolved timestamp, Python
evaluates `abs(timestamp - None)` (TypeError) or `min([])` (ValueError);
with a resolved timestamp but an empty candidate list, `min([])`
(ValueError). -/
def process_live_entry (timestamps : List Int) (merged : MergedDict)
    (entry : LiveEntry) : Option MergedDict :=
  (resolve_timestamp entry).bind (fun ts0 =>
    (attach_target timestamps merged ts0).map (attach_at merged entry))

/-- Second pass of the merger over the live-data samples; a `none` from any
step aborts the pass (the exception escapes the loop). -/
def live_pass (timestamps : List Int) :
    MergedDict → List LiveEntry → Option MergedDict
  | d, [] => some d
  | d, e :: rest =>
      (process_live_entry timestamps d e).bind
        (fun d1 => live_pass timestamps d1 rest)

/-- `merge_location_and_live_data` (lines 270-307): the position-fix pass,
then the live-data pass against the ascending-sorted position-fix
timestamps.  `none` models an exception escaping the function. -/
def merge_location_and_live_data (locationdata : List LocationEntry)
    (livedata : List LiveEntry) : Option MergedDict :=
  live_pass (pySorted (locationdata.map (fun e => e.start_time)))
    (location_pass locationdata) livedata

/-- The key a resolved sample timestamp attaches to (line 296): itself on an
exact hit among the entry keys (which are exactly the position-fix
timestamps), else the nearest position-fix timestamp. -/
def attach_key (locationdata : List LocationEntry) (ts : Int) : Option Int :=
  attach_target (pySorted (locationdata.map (fun e => e.start_time)))
    (location_pass locationdata) ts

/-- The fields of an entry built from a position fix: the `latitude`,
`longitude` and `altitude` keys are all present. -/
def located (e : TPData) : Prop :=
  e.latitude.isSome = true ∧ e.longitude.isSome = true ∧ e.altitude.isSome = true

/-- A merged entry carries at least one payload field besides `time`. -/
def payload_besides_time (e : TPData) : Prop :=
  e.latitude.isSome = true ∨ e.longitude.isSome = true ∨
  e.altitude.isSome = true ∨ e.distance.isSome = true ∨
  e.cadence.isSome = true ∨ e.heart_rate.isSome = true ∨
  e.speed.isSome = true

/-- The bare entry `{"time": time}` the merger would create at a timestamp
with no position fix (line 302). -/
def bare_time_entry (ts : Int) : TPData :=
  { time := format_time ts }

/-! ## Track points (`create_trackpoint`, lines 145-180) -/

/-- The optional `Position` child of a track point: the source tests
`"altitude" in data and "longitude" in data` (exactly those two keys) and
then reads `data["latitude"]` and `data["longitude"]`.  Reading the
`latitude` key cannot fail on merger output, where it always accompanies
`altitude`; the model totalises that read with a default. -/
def trackpoint_position (data : TPData) : Option (Int × Int) :=
  if data.altitude.isSome ∧ data.longitude.isSome then
    some (data.latitude.getD 0, data.longitude.getD 0)
  else none

/-- The number of children of the built `<Trackpoint>` element
(`len(trackpoint)`): `Time` always, plus the optional `Position`,
`HeartRateBpm` and `Cadence` children. -/
def trackpoint_children (data : TPData) : Nat :=
  1 + (if (trackpoint_position data).isSome then 1 else 0) +
    (if data.heart_rate.isSome then 1 else 0) +
    (if data.cadence.isSome then 1 else 0)

/-- `create_trackpoint` (lines 145-180): the element is returned only when
it has more than one child (`return trackpoint if len(trackpoint) > 1 else
None`). -/
def create_trackpoint (data : TPData) : Option Trackpoint :=
  if trackpoint_children data > 1 then
    some { time := data.time, position := trackpoint_position data,
           heart_rate := data.heart_rate, cadence := data.cadence }
  else none

/-! ## Laps (`create_lap`, lines 85-142) -/

/-- One optional numeric lap field: when `cond` (the truthiness test of the
source) holds the parsed value must exist (else the Python conversion
raises, modelled by `none`); otherwise the field is simply absent. -/
def parseIf {α : Type} (cond : Prop) [Decidable cond] (v : Option α) :
    Option (Option α) :=
  if cond then v.map some else some none

/-- `create_lap`: emits `TotalTimeSeconds` (`int(duration) / 1000`),
`DistanceMeters`, `MaximumSpeed`, `Calories` (`int(round(float(c), 0))`),
the heart-rate tags and the `LX` extension block.  Note line 125 of the
source: the guard of `MaximumHeartRateBpm` is
`if max_hr and avg_hr != "0.0"`, testing `avg_hr`.  The `Extensions` block
is created when any of the three extension inputs is a non-empty string.
`none` models an escaping `ValueError` from `int`/`float`. -/
def create_lap (start_time duration distance calories avg_hr max_hr
    avg_speed max_speed avg_cadence max_cadence : String) : Option Lap :=
  (parseIf (duration ≠ "") ((pyInt duration).map (fun n => Dec.mk n 3))).bind
    (fun tts =>
  (parseIf (calories ≠ "") ((pyFloat calories).map pyRound)).bind
    (fun cal =>
  (parseIf (avg_hr ≠ "" ∧ avg_hr ≠ "0.0") ((pyFloat avg_hr).map pyTrunc)).bind
    (fun ahr =>
  (parseIf (max_hr ≠ "" ∧ avg_hr ≠ "0.0") ((pyFloat max_hr).map pyTrunc)).map
    (fun mhr =>
  { startTime := start_time
    totalTimeSeconds := tts
    distanceMeters := if distance ≠ "" then some distance else none
    maximumSpeed := if max_speed ≠ "" then some max_speed else none
    calories := cal
    averageHeartRateBpm := ahr
    maximumHeartRateBpm := mhr
    intensity := "Active"
    triggerMethod := "Manual"
    extensions :=
      if avg_speed ≠ "" ∨ avg_cadence ≠ "" ∨ max_cadence ≠ "" then
        some { avgSpeed :=
                 if avg_speed ≠ "" ∧ avg_speed ≠ "0.0" then some avg_speed
                 else none
               avgRunCadence :=
                 if avg_cadence ≠ "" ∧ avg_cadence ≠ "0.0" then some avg_cadence
                 else none
               maxRunCadence :=
                 if max_cadence ≠ "" ∧ max_cadence ≠ "0.0" then some max_cadence
                 else none }
      else none }))))

/-! ## Document assembly and the driver -/

/-- `convert_activity_type` (lines 242-257). -/
def convert_activity_type (sport_type : String) : String :=
  if sport_type = "1002" then "Running"
  else if sport_type = "11007" then "Biking"
  else "Other"

/-- `build_xml` (lines 221-239): append the non-`None` track points to a
fresh `Track` element and append that element to the lap only when it holds
at least one point. -/
def build_xml (a_id : String) (ex_type : String) (lap : Lap)
    (trackpoints : List (Option Trackpoint)) : TCXDoc :=
  let track := trackpoints.filterMap id
  { activity_id := a_id
    sport := ex_type
    lap := lap
    tracks := if track.length > 0 then [track] else [] }

/-- `fetch_json_data` (lines 75-82): the filesystem is modelled by a lookup
from uuid to an optional JSON document; `none` (file not found) yields the
empty document `{}`, here the empty list. -/
def fetch_json_data {α : Type} (store : String → Option (List α))
    (uuid : String) : List α :=
  (store uuid).getD []

/-- The lap identifier (line 318): `start_time.replace(" ", "T") + "Z"`. -/
def timeId (s : String) : String :=
  s.replace " " "T" ++ "Z"

/-- Outcome of `prepare_exercise_data` for one row: a document, the `None`
return (missing location data), or an escaping exception. -/
inductive PrepResult
  | error
  | skipped
  | emitted (doc : TCXDoc)
deriving DecidableEq

/-- The body of `prepare_exercise_data` (lines 334-347) once the lap is
built: fetch the location data (skip the exercise when empty or absent),
fetch the live data, merge, keep the track points `create_trackpoint`
accepts, and assemble the document. -/
def emit_exercise (locs : String → Option (List LocationEntry))
    (lives : String → Option (List LiveEntry)) (exercise : Exercise)
    (lap : Lap) : PrepResult :=
  let time := timeId exercise.start_time
  let ex_type := convert_activity_type exercise.exercise_type
  let location_data := fetch_json_data locs exercise.datauuid
  if location_data = [] then PrepResult.skipped
  else
    let live_data := fetch_json_data lives exercise.datauuid
    match merge_location_and_live_data location_data live_data with
    | none => PrepResult.error
    | some data =>
        PrepResult.emitted (build_xml time ex_type lap
          ((data.filterMap (fun p => create_trackpoint p.2)).map some))

/-- `prepare_exercise_data` (lines 310-347): build the lap first (line 321;
a raising lap build aborts before any telemetry is read), then proceed with
`emit_exercise`. -/
def prepare_exercise_data (locs : String → Option (List LocationEntry))
    (lives : String → Option (List LiveEntry)) (exercise : Exercise) :
    PrepResult :=
  ((create_lap (timeId exercise.start_time) exercise.duration
      exercise.distance exercise.total_calorie exercise.mean_heart_rate
      exercise.max_heart_rate exercise.mean_speed exercise.max_speed
      exercise.mean_cadence exercise.max_cadence).map
    (emit_exercise locs lives exercise)).getD PrepResult.error

/-- What the driver loop reports for one exercise. -/
inductive DriverEvent
  | exported (uuid : String)
  | skippedMissing (uuid : String)
  | aborted
deriving DecidableEq

/-- What the driver loop appends for one processed exercise: an escaping
exception stops the batch, otherwise the remaining events follow. -/
def driver_step (r : PrepResult) (uuid : String) (tail : List DriverEvent) :
    List DriverEvent :=
  match r with
  | PrepResult.error => [DriverEvent.aborted]
  | PrepResult.skipped => DriverEvent.skippedMissing uuid :: tail
  | PrepResult.emitted _ => DriverEvent.exported uuid :: tail

/-- The `__main__` loop (lines 368-377): silently skip rows with an empty or
missing start time, report a skip when `prepare_exercise_data` returns
`None`, export otherwise; an escaping exception aborts the whole batch. -/
def run_driver (locs : String → Option (List LocationEntry))
    (lives : String → Option (List LiveEntry)) :
    List Exercise → List DriverEvent
  | [] => []
  | ex :: rest =>
      if ex.start_time = "" then run_driver locs lives rest
      else driver_step (prepare_exercise_data locs lives ex) ex.datauuid
        (run_driver locs lives rest)

/-! ## Dictionary lemmas -/

theorem dictContains_iff (d : MergedDict) (k : Int) :
    dictContains d k = true ↔ k ∈ dictKeys d := by
  simp only [dictContains, dictKeys, List.any_eq_true, beq_iff_eq, List.mem_map]

theorem dictKeys_dictSet (d : MergedDict) (k : Int) (v : TPData) :
    dictKeys (dictSet d k v) =
      if k ∈ dictKeys d then dictKeys d else dictKeys d ++ [k] := by
  induction d with
  | nil => simp [dictSet, dictKeys]
  | cons p rest ih =>
      simp only [dictSet]
      by_cases h : p.1 = k
      · rw [if_pos h, if_pos (show k ∈ dictKeys (p :: rest) from h ▸ List.mem_cons_self _ _)]
        show k :: dictKeys rest = p.1 :: dictKeys rest
        rw [h]
      · rw [if_neg h]
        show p.1 :: dictKeys (dictSet rest k v) = _
        rw [ih]
        by_cases hk : k ∈ dictKeys rest
        · rw [if_pos hk, if_pos (show k ∈ dictKeys (p :: rest) from List.mem_cons_of_mem _ hk)]
          rfl
        · rw [if_neg hk, if_neg ?_]
          · rfl
          · intro hc
            rcases List.mem_cons.mp hc with hc | hc
            · exact h hc.symm
            · exact hk hc

theorem dictKeys_dictUpdate (d : MergedDict) (k : Int) (f : TPData → TPData) :
    dictKeys (dictUpdate d k f) = dictKeys d := by
  induction d with
  | nil => rfl
  | cons p rest ih =>
      simp only [dictUpdate]
      by_cases h : p.1 = k
      · rw [if_pos h]
        rfl
      · rw [if_neg h]
        show p.1 :: dictKeys (dictUpdate rest k f) = p.1 :: dictKeys rest
        rw [ih]

theorem mem_dictSet_prop (Q : TPData → Prop) (d : MergedDict) (k : Int)
    (v : TPData) (hd : ∀ p ∈ d, Q p.2) (hv : Q v) :
    ∀ p ∈ dictSet d k v, Q p.2 := by
  induction d with
  | nil => simpa [dictSet] using hv
  | cons q rest ih =>
      simp only [dictSet]
      by_cases h : q.1 = k
      · rw [if_pos h]
        intro p hp
        rcases List.mem_cons.mp hp with hpq | hp
        · rw [hpq]; exact hv
        · exact hd p (List.mem_cons_of_mem _ hp)
      · rw [if_neg h]
        intro p hp
        rcases List.mem_cons.mp hp with hpq | hp
        · rw [hpq]; exact hd q (List.mem_cons_self _ _)
        · exact ih (fun r hr => hd r (List.mem_cons_of_mem _ hr)) p hp

theorem mem_dictUpdate_prop (Q : TPData → Prop) (d : MergedDict) (k : Int)
    (f : TPData → TPData) (hf : ∀ x, Q x → Q (f x)) (hd : ∀ p ∈ d, Q p.2) :
    ∀ p ∈ dictUpdate d k f, Q p.2 := by
  induction d with
  | nil => simp [dictUpdate]
  | cons q rest ih =>
      simp only [dictUpdate]
      by_cases h : q.1 = k
      · rw [if_pos h]
        intro p hp
        rcases List.mem_cons.mp hp with hpq | hp
        · rw [hpq]; exact hf _ (hd q (List.mem_cons_self _ _))
        · exact hd p (List.mem_cons_of_mem _ hp)
      · rw [if_neg h]
        intro p hp
        rcases List.mem_cons.mp hp with hpq | hp
        · rw [hpq]; exact hd q (List.mem_cons_self _ _)
        · exact ih (fun r hr => hd r (List.mem_cons_of_mem _ hr)) p hp

/-! ## Sorting lemmas for `pySorted` -/

theorem mem_insertSorted (x a : Int) (l : List Int) :
    a ∈ insertSorted x l ↔ a = x ∨ a ∈ l := by
  induction l with
  | nil => simp [insertSorted]
  | cons y ys ih =>
      by_cases h : x ≤ y
      · simp [insertSorted, h, List.mem_cons]
      · simp [insertSorted, h, List.mem_cons, ih]
        tauto

theorem mem_pySorted (a : Int) (l : List Int) : a ∈ pySorted l ↔ a ∈ l := by
  induction l with
  | nil => simp [pySorted]
  | cons x xs ih =>
      show a ∈ insertSorted x (pySorted xs) ↔ _
      rw [mem_insertSorted, ih]
      simp [List.mem_cons]

theorem insertSorted_ne_nil (x : Int) (l : List Int) : insertSorted x l ≠ [] := by
  cases l with
  | nil => simp [insertSorted]
  | cons y ys =>
      by_cases h : x ≤ y <;> simp [insertSorted, h]

theorem pySorted_ne_nil (l : List Int) (h : l ≠ []) : pySorted l ≠ [] := by
  cases l with
  | nil => exact absurd rfl h
  | cons x xs => exact insertSorted_ne_nil x (pySorted xs)

theorem sorted_insertSorted (x : Int) (l : List Int)
    (h : List.Sorted (· ≤ ·) l) : List.Sorted (· ≤ ·) (insertSorted x l) := by
  induction l with
  | nil => simp [insertSorted]
  | cons y ys ih =>
      rw [List.sorted_cons] at h
      obtain ⟨hy, hys⟩ := h
      by_cases hxy : x ≤ y
      · rw [insertSorted, if_pos hxy, List.sorted_cons]
        refine ⟨?_, ?_⟩
        · intro b hb
          rcases List.mem_cons.mp hb with rfl | hb
          · exact hxy
          · exact le_trans hxy (hy b hb)
        · rw [List.sorted_cons]; exact ⟨hy, hys⟩
      · rw [insertSorted, if_neg hxy, List.sorted_cons]
        refine ⟨?_, ih hys⟩
        intro b hb
        rcases (mem_insertSorted x b ys).mp hb with rfl | hb
        · exact le_of_not_le hxy
        · exact hy b hb

theorem sorted_pySorted (l : List Int) : List.Sorted (· ≤ ·) (pySorted l) := by
  induction l with
  | nil => simp [pySorted]
  | cons x xs ih => exact sorted_insertSorted x (pySorted xs) ih

/-! ## Lemmas on the nearest-timestamp search -/

theorem nearer_to_foldl_spec (ts : Int) (l : List Int) : ∀ b : Int,
    (List.foldl (nearer_to ts) b l = b ∨ List.foldl (nearer_to ts) b l ∈ l) ∧
    |List.foldl (nearer_to ts) b l - ts| ≤ |b - ts| ∧
    ∀ u ∈ l, |List.foldl (nearer_to ts) b l - ts| ≤ |u - ts| := by
  induction l with
  | nil =>
      intro b
      exact ⟨Or.inl rfl, le_refl _, by simp⟩
  | cons c l ih =>
      intro b
      simp only [List.foldl_cons]
      obtain ⟨hmem, hb, hall⟩ := ih (nearer_to ts b c)
      have hbc : |nearer_to ts b c - ts| ≤ |b - ts| := by
        unfold nearer_to
        split
        · exact le_of_lt (by assumption)
        · exact le_refl _
      have hcc : |nearer_to ts b c - ts| ≤ |c - ts| := by
        unfold nearer_to
        split
        · exact le_refl _
        · exact le_of_not_lt (by assumption)
      refine ⟨?_, le_trans hb hbc, ?_⟩
      · rcases hmem with h | h
        · rw [h]
          unfold nearer_to
          split
          · exact Or.inr (List.mem_cons_self _ _)
          · exact Or.inl rfl
        · exact Or.inr (List.mem_cons_of_mem _ h)
      · intro u hu
        rcases List.mem_cons.mp hu with rfl | hu
        · exact le_trans hb hcc
        · exact hall u hu

theorem nearer_to_foldl_tie (ts : Int) (l : List Int) : ∀ b : Int,
    List.Sorted (· ≤ ·) (b :: l) →
    ∀ u, (u = b ∨ u ∈ l) →
      |u - ts| = |List.foldl (nearer_to ts) b l - ts| →
      List.foldl (nearer_to ts) b l ≤ u := by
  induction l with
  | nil =>
      intro b _ u hu _
      rcases hu with rfl | hu
      · exact le_refl _
      · exact absurd hu (List.not_mem_nil u)
  | cons c l ih =>
      intro b hsort u hu heq
      simp only [List.foldl_cons] at heq ⊢
      rw [List.sorted_cons] at hsort
      obtain ⟨hble, hsc⟩ := hsort
      have hbc : b ≤ c := hble c (List.mem_cons_self _ _)
      have hsort2 : List.Sorted (· ≤ ·) (nearer_to ts b c :: l) := by
        rw [List.sorted_cons] at hsc ⊢
        obtain ⟨hcle, hsl⟩ := hsc
        refine ⟨?_, hsl⟩
        intro x hx
        unfold nearer_to
        split
        · exact hcle x hx
        · exact hble x (List.mem_cons_of_mem _ hx)
      obtain ⟨hmem, hmin, hall⟩ := nearer_to_foldl_spec ts l (nearer_to ts b c)
      by_cases hlt : |c - ts| < |b - ts|
      · have hc : nearer_to ts b c = c := by unfold nearer_to; rw [if_pos hlt]
        rcases hu with hub | hu2
        · -- u = b: a tie with b is impossible, the result is strictly closer
          exfalso
          have h1 : |List.foldl (nearer_to ts) (nearer_to ts b c) l - ts| < |u - ts| := by
            calc |List.foldl (nearer_to ts) (nearer_to ts b c) l - ts|
                ≤ |nearer_to ts b c - ts| := hmin
              _ = |c - ts| := by rw [hc]
              _ < |b - ts| := hlt
              _ = |u - ts| := by rw [hub]
          rw [heq] at h1
          exact lt_irrefl _ h1
        · rcases List.mem_cons.mp hu2 with huc | hul
          · exact ih (nearer_to ts b c) hsort2 u (Or.inl (by rw [hc]; exact huc)) heq
          · exact ih (nearer_to ts b c) hsort2 u (Or.inr hul) heq
      · have hc : nearer_to ts b c = b := by unfold nearer_to; rw [if_neg hlt]
        have hble2 : |b - ts| ≤ |c - ts| := le_of_not_lt hlt
        rcases hu with hub | hu2
        · exact ih (nearer_to ts b c) hsort2 u (Or.inl (by rw [hc]; exact hub)) heq
        · rcases List.mem_cons.mp hu2 with huc | hul
          · -- u = c ties with the result, hence so does b; recurse at b
            have h1 : |List.foldl (nearer_to ts) (nearer_to ts b c) l - ts| ≤ |b - ts| := by
              calc |List.foldl (nearer_to ts) (nearer_to ts b c) l - ts|
                  ≤ |nearer_to ts b c - ts| := hmin
                _ = |b - ts| := by rw [hc]
            have h2 : |b - ts| ≤ |List.foldl (nearer_to ts) (nearer_to ts b c) l - ts| := by
              rw [← heq, huc]; exact hble2
            have h3 : |b - ts| = |List.foldl (nearer_to ts) (nearer_to ts b c) l - ts| :=
              le_antisymm h2 h1
            have h4 := ih (nearer_to ts b c) hsort2 b (Or.inl (by rw [hc])) h3
            rw [huc]
            exact le_trans h4 hbc
          · exact ih (nearer_to ts b c) hsort2 u (Or.inr hul) heq

theorem find_nearest_time_isSome (ts : Int) (l : List Int) (h : l ≠ []) :
    (find_nearest_time ts l).isSome = true := by
  cases l with
  | nil => exact absurd rfl h
  | cons t rest => rfl

theorem find_nearest_time_mem {ts r : Int} {l : List Int}
    (h : find_nearest_time ts l = some r) : r ∈ l := by
  cases l with
  | nil => simp [find_nearest_time] at h
  | cons t rest =>
      simp only [find_nearest_time, Option.some.injEq] at h
      obtain ⟨hmem, -, -⟩ := nearer_to_foldl_spec ts rest t
      rw [h] at hmem
      rcases hmem with h1 | h1
      · rw [← h1]; exact List.mem_cons_self _ _
      · exact List.mem_cons_of_mem _ h1

theorem find_nearest_time_min {ts r : Int} {l : List Int}
    (h : find_nearest_time ts l = some r) : ∀ u ∈ l, |r - ts| ≤ |u - ts| := by
  cases l with
  | nil => simp [find_nearest_time] at h
  | cons t rest =>
      simp only [find_nearest_time, Option.some.injEq] at h
      obtain ⟨-, hmin, hall⟩ := nearer_to_foldl_spec ts rest t
      intro u hu
      rcases List.mem_cons.mp hu with rfl | hu
      · rw [← h]; exact hmin
      · rw [← h]; exact hall u hu

theorem find_nearest_time_tie {ts r : Int} {l : List Int}
    (hs : List.Sorted (· ≤ ·) l) (h : find_nearest_time ts l = some r) :
    ∀ u ∈ l, |u - ts| = |r - ts| → r ≤ u := by
  cases l with
  | nil => simp [find_nearest_time] at h
  | cons t rest =>
      simp only [find_nearest_time, Option.some.injEq] at h
      intro u hu heq
      rw [← h]
      refine nearer_to_foldl_tie ts rest t hs u ?_ (by rw [h]; exact heq)
      rcases List.mem_cons.mp hu with rfl | hu
      · exact Or.inl rfl
      · exact Or.inr hu

/-! ## Invariants of the merger -/

theorem mem_dictKeys_foldl_insert_location (L : List LocationEntry) :
    ∀ (d : MergedDict) (k : Int),
      k ∈ dictKeys (List.foldl insert_location d L) ↔
        k ∈ L.map (fun e => e.start_time) ∨ k ∈ dictKeys d := by
  induction L with
  | nil => intro d k; simp
  | cons e L ih =>
      intro d k
      simp only [List.foldl_cons, List.map_cons, List.mem_cons]
      rw [ih]
      unfold insert_location
      rw [dictKeys_dictSet]
      by_cases h : e.start_time ∈ dictKeys d
      · rw [if_pos h]
        constructor
        · tauto
        · rintro ((heq | h2) | h2)
          · exact Or.inr (heq ▸ h)
          · exact Or.inl h2
          · exact Or.inr h2
      · rw [if_neg h]
        simp only [List.mem_append, List.mem_singleton]
        tauto

theorem mem_dictKeys_location_pass (L : List LocationEntry) (k : Int) :
    k ∈ dictKeys (location_pass L) ↔ k ∈ L.map (fun e => e.start_time) := by
  unfold location_pass
  rw [mem_dictKeys_foldl_insert_location]
  simp [dictKeys]

theorem located_location_pass (L : List LocationEntry) :
    ∀ (d : MergedDict), (∀ p ∈ d, located p.2) →
      ∀ p ∈ List.foldl insert_location d L, located p.2 := by
  induction L with
  | nil => intro d hd; simpa using hd
  | cons e L ih =>
      intro d hd
      simp only [List.foldl_cons]
      refine ih _ ?_
      exact mem_dictSet_prop located d e.start_time (location_entry_data e) hd
        (by simp [located, location_entry_data])

theorem located_live_payload (e : LiveEntry) (x : TPData) (h : located x) :
    located (live_payload e x) := by
  simpa [located, live_payload] using h

/-- Characterisation of one successful live-data step: it rewrites exactly
one existing key in place (never inserting), provided every candidate
timestamp is a key of the dict. -/
theorem process_live_entry_some_eq (tsL : List Int) (d : MergedDict)
    (e : LiveEntry) (d1 : MergedDict)
    (hstep : process_live_entry tsL d e = some d1)
    (hts : ∀ t ∈ tsL, dictContains d t = true) :
    ∃ k, dictContains d k = true ∧ d1 = dictUpdate d k (live_payload e) := by
  unfold process_live_entry at hstep
  cases hr : resolve_timestamp e with
  | none => rw [hr] at hstep; exact absurd hstep (by simp)
  | some ts0 =>
      rw [hr, Option.some_bind] at hstep
      cases ht : attach_target tsL d ts0 with
      | none => rw [ht] at hstep; exact absurd hstep (by simp)
      | some ts =>
          rw [ht, Option.map_some'] at hstep
          have hd1 : d1 = attach_at d e ts := (Option.some.inj hstep).symm
          have hcts : dictContains d ts = true := by
            unfold attach_target at ht
            by_cases hc : dictContains d ts0 = true
            · rw [if_pos hc] at ht
              rw [← Option.some.inj ht]
              exact hc
            · rw [if_neg hc] at ht
              exact hts ts (find_nearest_time_mem ht)
          refine ⟨ts, hcts, ?_⟩
          rw [hd1]
          unfold attach_at
          rw [if_pos hcts]

/-- A successful live pass never changes the key sequence, and it keeps
every entry located, provided every candidate timestamp is a key. -/
theorem live_pass_inv (tsL : List Int) :
    ∀ (S : List LiveEntry) (d m : MergedDict),
      live_pass tsL d S = some m →
      (∀ t ∈ tsL, dictContains d t = true) →
      dictKeys m = dictKeys d ∧
        ((∀ p ∈ d, located p.2) → ∀ p ∈ m, located p.2) := by
  intro S
  induction S with
  | nil =>
      intro d m h _
      have hm : d = m := by simpa [live_pass] using h
      subst hm
      exact ⟨rfl, fun h2 => h2⟩
  | cons e S ih =>
      intro d m h hts
      unfold live_pass at h
      cases hstep : process_live_entry tsL d e with
      | none => rw [hstep] at h; exact absurd h (by simp)
      | some d1 =>
          rw [hstep] at h
          obtain ⟨k, hk, hd1⟩ := process_live_entry_some_eq tsL d e d1 hstep hts
          have hkeys1 : dictKeys d1 = dictKeys d := by
            rw [hd1, dictKeys_dictUpdate]
          have hts1 : ∀ t ∈ tsL, dictContains d1 t = true := by
            intro t ht
            rw [dictContains_iff, hkeys1, ← dictContains_iff]
            exact hts t ht
          obtain ⟨hkeys2, hloc2⟩ := ih d1 m h hts1
          refine ⟨hkeys2.trans hkeys1, fun hd => ?_⟩
          refine hloc2 ?_
          rw [hd1]
          exact mem_dictUpdate_prop located d k (live_payload e)
            (located_live_payload e) hd

/-- A live pass over samples that all resolve a timestamp succeeds whenever
the candidate list is non-empty and its members are keys. -/
theorem live_pass_isSome (tsL : List Int) (hne : tsL ≠ []) :
    ∀ (S : List LiveEntry) (d : MergedDict),
      (∀ t ∈ tsL, dictContains d t = true) →
      (∀ s ∈ S, resolve_timestamp s ≠ none) →
      (live_pass tsL d S).isSome = true := by
  intro S
  induction S with
  | nil => intro d _ _; rfl
  | cons e S ih =>
      intro d hts hres
      have he : resolve_timestamp e ≠ none := hres e (List.mem_cons_self _ _)
      obtain ⟨d1, hstep⟩ : ∃ d1, process_live_entry tsL d e = some d1 := by
        unfold process_live_entry
        cases hr : resolve_timestamp e with
        | none => exact absurd hr he
        | some ts0 =>
            rw [Option.some_bind]
            unfold attach_target
            by_cases hc : dictContains d ts0 = true
            · rw [if_pos hc]
              exact ⟨_, rfl⟩
            · rw [if_neg hc]
              cases hf : find_nearest_time ts0 tsL with
              | none =>
                  have := find_nearest_time_isSome ts0 tsL hne
                  rw [hf] at this
                  exact absurd this (by simp)
              | some r => exact ⟨_, rfl⟩
      show (live_pass tsL d (e :: S)).isSome = true
      unfold live_pass
      rw [hstep]
      obtain ⟨k, hk, hd1⟩ := process_live_entry_some_eq tsL d e d1 hstep hts
      refine ih d1 ?_ ?_
      · intro t ht
        rw [dictContains_iff, hd1, dictKeys_dictUpdate, ← dictContains_iff]
        exact hts t ht
      · intro s hs
        exact hres s (List.mem_cons_of_mem _ hs)

theorem location_pass_contains (P : List LocationEntry) :
    ∀ t ∈ pySorted (P.map (fun e => e.start_time)),
      dictContains (location_pass P) t = true := by
  intro t ht
  rw [dictContains_iff, mem_dictKeys_location_pass]
  exact (mem_pySorted t _).mp ht

/-- The keys of a successful merge are exactly the keys laid down by the
position-fix pass, in the same order. -/
theorem merge_keys (P : List LocationEntry) (S : List LiveEntry)
    (m : MergedDict) (h : merge_location_and_live_data P S = some m) :
    dictKeys m = dictKeys (location_pass P) :=
  (live_pass_inv _ S (location_pass P) m h (location_pass_contains P)).1

/-- Every entry of a successful merge descends from a position fix and so
carries the `latitude`, `longitude` and `altitude` keys. -/
theorem merge_entries_located (P : List LocationEntry) (S : List LiveEntry)
    (m : MergedDict) (h : merge_location_and_live_data P S = some m) :
    ∀ p ∈ m, located p.2 :=
  (live_pass_inv _ S (location_pass P) m h (location_pass_contains P)).2
    (located_location_pass P [] (by simp))

/-- When the position fixes arrive in ascending timestamp order, the keys
laid down by the first pass are strictly ascending (duplicates collapse onto
their first occurrence). -/
theorem location_pass_keys_sorted_aux (L : List LocationEntry) :
    ∀ (d : MergedDict),
      List.Sorted (· < ·) (dictKeys d) →
      List.Sorted (· ≤ ·) (L.map (fun e => e.start_time)) →
      (∀ k ∈ dictKeys d, ∀ t ∈ L.map (fun e => e.start_time), k ≤ t) →
      List.Sorted (· < ·) (dictKeys (List.foldl insert_location d L)) := by
  induction L with
  | nil => intro d hd _ _; simpa using hd
  | cons e L ih =>
      intro d hd hL hcross
      rw [List.map_cons, List.sorted_cons] at hL
      obtain ⟨hhead, htail⟩ := hL
      simp only [List.foldl_cons]
      refine ih _ ?_ htail ?_
      · unfold insert_location
        rw [dictKeys_dictSet]
        by_cases h : e.start_time ∈ dictKeys d
        · rw [if_pos h]; exact hd
        · rw [if_neg h]
          rw [List.Sorted, List.pairwise_append]
          refine ⟨hd, List.pairwise_singleton _ _, ?_⟩
          intro a ha b hb
          rw [List.mem_singleton] at hb
          subst hb
          have hle := hcross a ha e.start_time (by simp)
          exact lt_of_le_of_ne hle (fun heq => h (heq ▸ ha))
      · intro k hk t ht
        unfold insert_location at hk
        rw [dictKeys_dictSet] at hk
        by_cases h : e.start_time ∈ dictKeys d
        · rw [if_pos h] at hk
          exact hcross k hk t (List.mem_cons_of_mem _ ht)
        · rw [if_neg h] at hk
          rcases List.mem_append.mp hk with h2 | h2
          · exact hcross k h2 t (List.mem_cons_of_mem _ ht)
          · rw [List.mem_singleton] at h2
            subst h2
            exact hhead t ht

/-! ## Lemmas on the optional lap fields -/

theorem parseIf_isSome_iff {α : Type} (c : Prop) [Decidable c] (v : Option α)
    (o : Option α) (h : parseIf c v = some o) : (o.isSome = true ↔ c) := by
  unfold parseIf at h
  split at h
  · cases v with
    | none => simp at h
    | some a =>
        rw [Option.map_some'] at h
        rw [← Option.some.inj h]
        simpa using ‹c›
  · rw [← Option.some.inj h]
    simpa using ‹¬c›

theorem parseIf_not (α : Type) (c : Prop) [Decidable c] (v : Option α)
    (hc : ¬c) : parseIf c v = some none := by
  unfold parseIf
  rw [if_neg hc]

theorem parseIf_fail (α : Type) (c : Prop) [Decidable c] (hc : c) :
    parseIf c (none : Option α) = none := by
  unfold parseIf
  rw [if_pos hc]
  rfl

theorem ite_some_none_isSome {α : Type} (c : Prop) [Decidable c] (v : α) :
    ((if c then some v else none).isSome = true) ↔ c := by
  by_cases h : c
  · rw [if_pos h]; simpa using h
  · rw [if_neg h]; simpa using h

/-- One sample with no resolvable timestamp aborts the whole live pass. -/
theorem live_pass_fail (tsL : List Int) (s : LiveEntry)
    (h : resolve_timestamp s = none) :
    ∀ (S : List LiveEntry) (d : MergedDict), s ∈ S →
      live_pass tsL d S = none := by
  intro S
  induction S with
  | nil => intro d hs; exact absurd hs (List.not_mem_nil s)
  | cons e S ih =>
      intro d hs
      unfold live_pass
      rcases List.mem_cons.mp hs with hes | hs2
      · have hnone : process_live_entry tsL d e = none := by
          unfold process_live_entry
          rw [← hes, h]
          rfl
        rw [hnone]
        rfl
      · cases hp : process_live_entry tsL d e with
        | none => rfl
        | some d1 =>
            rw [Option.some_bind]
            exact ih d1 hs2

/-! ## The claims -/

/-- Claim C10: for every non-empty ascending-sorted list of position-fix
timestamps and every target timestamp, the nearest-timestamp search returns
a timestamp minimising the absolute difference to the target, and when two
candidates are equidistant it returns the smaller (earlier) timestamp. -/
theorem claim_c10_find_nearest_time (ts : Int) (l : List Int) (h1 : l ≠ [])
    (h2 : List.Sorted (· ≤ ·) l) :
    (find_nearest_time ts l).isSome = true ∧
    ∀ r, find_nearest_time ts l = some r →
      r ∈ l ∧ (∀ u ∈ l, |r - ts| ≤ |u - ts|) ∧
      (∀ u ∈ l, |u - ts| = |r - ts| → r ≤ u) := by
  refine ⟨find_nearest_time_isSome ts l h1, ?_⟩
  intro r hr
  exact ⟨find_nearest_time_mem hr, find_nearest_time_min hr,
    find_nearest_time_tie h2 hr⟩

/-- Claim C10 witness: the search among 1000, 2000, 3000 for target 2500
(2000 and 3000 are equidistant; the result 2000 is the earlier one). -/
theorem claim_c10_witness :
    (find_nearest_time 2500 [1000, 2000, 3000]).isSome = true ∧
    ∀ r, find_nearest_time 2500 [1000, 2000, 3000] = some r →
      r ∈ [1000, 2000, 3000] ∧
      (∀ u ∈ [1000, 2000, 3000], |r - 2500| ≤ |u - 2500|) ∧
      (∀ u ∈ [1000, 2000, 3000], |u - 2500| = |r - 2500| → r ≤ u) :=
  claim_c10_find_nearest_time 2500 [1000, 2000, 3000] (by decide) (by decide)

/-- Claim C6: the assembled document carries a track element inside the lap
exactly when at least one track point exists: with none, no (empty) track
element appears, and with `n ≥ 1` points there is exactly one track element
holding exactly those points, in order. -/
theorem claim_c6_build_xml (a_id ex_type : String) (lap : Lap)
    (trackpoints : List (Option Trackpoint)) :
    (build_xml a_id ex_type lap trackpoints).tracks =
      if trackpoints.filterMap id = [] then []
      else [trackpoints.filterMap id] := by
  unfold build_xml
  by_cases h : trackpoints.filterMap id = []
  · rw [if_pos h]
    simp [h]
  · rw [if_neg h]
    simp [List.length_pos.mpr h]

/-- Claim C4 evaluation: with `avg_hr = "0.0"` the maximum heart rate
`"180.0"` (present, not the zero sentinel) is omitted from the lap, and with
`avg_hr = "150.0"` the sentinel maximum heart rate `"0.0"` is emitted as 0;
the guard on line 125 tests `avg_hr`, not `max_hr`. -/
theorem claim_c4_code_bug_eval :
    (create_lap "2013-10-27T10:00:00Z" "" "" "" "0.0" "180.0" "" "" "" "").map
        (fun lap => lap.maximumHeartRateBpm) = some none ∧
    (create_lap "2013-10-27T10:00:00Z" "" "" "" "150.0" "0.0" "" "" "" "").map
        (fun lap => lap.maximumHeartRateBpm) = some (some 0) := by
  constructor
  · rfl
  · decide

/-- Claim C5 counterexample: the zero-valued maximum speed `"0.0"` is
emitted as the `MaximumSpeed` field instead of being omitted (the source
tests only `if max_speed:`, with no zero-sentinel check). -/
theorem claim_c5_counterexample :
    (create_lap "2013-10-27T10:00:00Z" "" "" "" "" "" "" "0.0" "" "").map
      (fun lap => lap.maximumSpeed) = some (some "0.0") := by
  rfl

/-- Claim C5 amended: in every lap the lap builder returns, a numeric field
is omitted exactly when its input is the empty string — except that the
heart-rate fields and the extension speed/cadence values are additionally
omitted when equal to the zero sentinel `"0.0"` (with the maximum heart rate
tested against the average heart-rate input, line 125); duration, distance
and maximum speed are emitted whenever non-empty, even when zero-valued. -/
theorem claim_c5_amended (start_time duration distance calories avg_hr max_hr
    avg_speed max_speed avg_cadence max_cadence : String) (lap : Lap)
    (h : create_lap start_time duration distance calories avg_hr max_hr
      avg_speed max_speed avg_cadence max_cadence = some lap) :
    (lap.totalTimeSeconds.isSome = true ↔ duration ≠ "") ∧
    (lap.distanceMeters.isSome = true ↔ distance ≠ "") ∧
    (lap.maximumSpeed.isSome = true ↔ max_speed ≠ "") ∧
    (lap.calories.isSome = true ↔ calories ≠ "") ∧
    (lap.averageHeartRateBpm.isSome = true ↔ (avg_hr ≠ "" ∧ avg_hr ≠ "0.0")) ∧
    (lap.maximumHeartRateBpm.isSome = true ↔ (max_hr ≠ "" ∧ avg_hr ≠ "0.0")) ∧
    (lap.extensions.isSome = true ↔
      (avg_speed ≠ "" ∨ avg_cadence ≠ "" ∨ max_cadence ≠ "")) ∧
    (∀ ext, lap.extensions = some ext →
      (ext.avgSpeed.isSome = true ↔ (avg_speed ≠ "" ∧ avg_speed ≠ "0.0")) ∧
      (ext.avgRunCadence.isSome = true ↔
        (avg_cadence ≠ "" ∧ avg_cadence ≠ "0.0")) ∧
      (ext.maxRunCadence.isSome = true ↔
        (max_cadence ≠ "" ∧ max_cadence ≠ "0.0"))) := by
  unfold create_lap at h
  cases h1 : parseIf (duration ≠ "") ((pyInt duration).map (fun n => Dec.mk n 3)) with
  | none => rw [h1, Option.none_bind] at h; exact absurd h (by simp)
  | some tts =>
  rw [h1, Option.some_bind] at h
  cases h2 : parseIf (calories ≠ "") ((pyFloat calories).map pyRound) with
  | none => rw [h2, Option.none_bind] at h; exact absurd h (by simp)
  | some cal =>
  rw [h2, Option.some_bind] at h
  cases h3 : parseIf (avg_hr ≠ "" ∧ avg_hr ≠ "0.0") ((pyFloat avg_hr).map pyTrunc) with
  | none => rw [h3, Option.none_bind] at h; exact absurd h (by simp)
  | some ahr =>
  rw [h3, Option.some_bind] at h
  cases h4 : parseIf (max_hr ≠ "" ∧ avg_hr ≠ "0.0") ((pyFloat max_hr).map pyTrunc) with
  | none => rw [h4, Option.map_none'] at h; exact absurd h (by simp)
  | some mhr =>
  rw [h4, Option.map_some'] at h
  have hlap := (Option.some.inj h).symm
  subst hlap
  refine ⟨parseIf_isSome_iff _ _ _ h1, ite_some_none_isSome _ _,
    ite_some_none_isSome _ _, parseIf_isSome_iff _ _ _ h2,
    parseIf_isSome_iff _ _ _ h3, parseIf_isSome_iff _ _ _ h4,
    ite_some_none_isSome _ _, ?_⟩
  intro ext hext
  by_cases hc : avg_speed ≠ "" ∨ avg_cadence ≠ "" ∨ max_cadence ≠ ""
  · rw [show (Lap.extensions _) = _ from rfl, if_pos hc] at hext
    rw [← Option.some.inj hext]
    exact ⟨ite_some_none_isSome _ _, ite_some_none_isSome _ _,
      ite_some_none_isSome _ _⟩
  · rw [show (Lap.extensions _) = _ from rfl, if_neg hc] at hext
    exact absurd hext (by simp)

/-- Claim C5 amended witness: a fully populated row; every optional field is
present since every input is non-empty and differs from the sentinel. -/
theorem claim_c5_amended_witness :
    (((create_lap "2013-10-27T10:00:00Z" "60000" "1000.0" "12.4" "150.0"
        "180.0" "2.5" "3.0" "80.0" "90.0").get (by rfl)).totalTimeSeconds.isSome
          = true ↔ "60000" ≠ "") ∧
    (((create_lap "2013-10-27T10:00:00Z" "60000" "1000.0" "12.4" "150.0"
        "180.0" "2.5" "3.0" "80.0" "90.0").get (by rfl)).distanceMeters.isSome
          = true ↔ "1000.0" ≠ "") ∧
    (((create_lap "2013-10-27T10:00:00Z" "60000" "1000.0" "12.4" "150.0"
        "180.0" "2.5" "3.0" "80.0" "90.0").get (by rfl)).maximumSpeed.isSome
          = true ↔ "3.0" ≠ "") ∧
    (((create_lap "2013-10-27T10:00:00Z" "60000" "1000.0" "12.4" "150.0"
        "180.0" "2.5" "3.0" "80.0" "90.0").get (by rfl)).calories.isSome
          = true ↔ "12.4" ≠ "") ∧
    (((create_lap "2013-10-27T10:00:00Z" "60000" "1000.0" "12.4" "150.0"
        "180.0" "2.5" "3.0" "80.0" "90.0").get (by rfl)).averageHeartRateBpm.isSome
          = true ↔ ("150.0" ≠ "" ∧ "150.0" ≠ "0.0")) ∧
    (((create_lap "2013-10-27T10:00:00Z" "60000" "1000.0" "12.4" "150.0"
        "180.0" "2.5" "3.0" "80.0" "90.0").get (by rfl)).maximumHeartRateBpm.isSome
          = true ↔ ("180.0" ≠ "" ∧ "150.0" ≠ "0.0")) ∧
    (((create_lap "2013-10-27T10:00:00Z" "60000" "1000.0" "12.4" "150.0"
        "180.0" "2.5" "3.0" "80.0" "90.0").get (by rfl)).extensions.isSome
          = true ↔ ("2.5" ≠ "" ∨ "80.0" ≠ "" ∨ "90.0" ≠ "")) ∧
    (∀ ext, ((create_lap "2013-10-27T10:00:00Z" "60000" "1000.0" "12.4" "150.0"
        "180.0" "2.5" "3.0" "80.0" "90.0").get (by rfl)).extensions = some ext →
      (ext.avgSpeed.isSome = true ↔ ("2.5" ≠ "" ∧ "2.5" ≠ "0.0")) ∧
      (ext.avgRunCadence.isSome = true ↔ ("80.0" ≠ "" ∧ "80.0" ≠ "0.0")) ∧
      (ext.maxRunCadence.isSome = true ↔ ("90.0" ≠ "" ∧ "90.0" ≠ "0.0"))) :=
  claim_c5_amended "2013-10-27T10:00:00Z" "60000" "1000.0" "12.4" "150.0"
    "180.0" "2.5" "3.0" "80.0" "90.0" _ (by rfl)

/-- Claim C9 counterexample: an unparsable calories value makes the lap
builder raise (`float("abc")` is a `ValueError`), so no lap record is
produced for the row, contradicting treat-as-absent. -/
theorem claim_c9_counterexample :
    create_lap "2013-10-27T10:00:00Z" "" "" "abc" "" "" "" "" "" "" = none := by
  rfl

/-- Claim C9 amended: an unparsable numeric value in any parsed optional
field of a summary row — duration, calories, or a heart-rate statistic whose
guard admits it — makes the lap builder raise, so no lap record is produced
for the row; `prepare_exercise_data` then errors and the driver aborts the
whole batch, rather than treating the field as absent. -/
theorem claim_c9_amended (ex : Exercise)
    (hbad :
      (ex.duration ≠ "" ∧ pyInt ex.duration = none) ∨
      (ex.total_calorie ≠ "" ∧ pyFloat ex.total_calorie = none) ∨
      (ex.mean_heart_rate ≠ "" ∧ ex.mean_heart_rate ≠ "0.0" ∧
        pyFloat ex.mean_heart_rate = none) ∨
      (ex.max_heart_rate ≠ "" ∧ ex.mean_heart_rate ≠ "0.0" ∧
        pyFloat ex.max_heart_rate = none)) :
    create_lap (timeId ex.start_time) ex.duration ex.distance
        ex.total_calorie ex.mean_heart_rate ex.max_heart_rate ex.mean_speed
        ex.max_speed ex.mean_cadence ex.max_cadence = none ∧
    (∀ (locs : String → Option (List LocationEntry))
       (lives : String → Option (List LiveEntry)),
      prepare_exercise_data locs lives ex = PrepResult.error) ∧
    (∀ (locs : String → Option (List LocationEntry))
       (lives : String → Option (List LiveEntry)) (rest : List Exercise),
      ex.start_time ≠ "" →
      run_driver locs lives (ex :: rest) = [DriverEvent.aborted]) := by
  have hlap : create_lap (timeId ex.start_time) ex.duration ex.distance
      ex.total_calorie ex.mean_heart_rate ex.max_heart_rate ex.mean_speed
      ex.max_speed ex.mean_cadence ex.max_cadence = none := by
    rcases hbad with ⟨hne, hp⟩ | ⟨hne, hp⟩ | ⟨hne, hs, hp⟩ | ⟨hne, hs, hp⟩
    · -- unparsable duration: the first conversion raises
      have h0 : parseIf (ex.duration ≠ "")
          ((pyInt ex.duration).map (fun n => Dec.mk n 3)) = none := by
        rw [hp, Option.map_none']
        exact parseIf_fail _ _ hne
      unfold create_lap
      rw [h0]
      rfl
    · -- unparsable calories
      have h0 : parseIf (ex.total_calorie ≠ "")
          ((pyFloat ex.total_calorie).map pyRound) = none := by
        rw [hp, Option.map_none']
        exact parseIf_fail _ _ hne
      unfold create_lap
      simp only [h0, Option.none_bind]
      cases parseIf (ex.duration ≠ "")
          ((pyInt ex.duration).map (fun n => Dec.mk n 3)) with
      | none => rfl
      | some tts => rfl
    · -- unparsable average heart rate that passes its guard
      have h0 : parseIf (ex.mean_heart_rate ≠ "" ∧ ex.mean_heart_rate ≠ "0.0")
          ((pyFloat ex.mean_heart_rate).map pyTrunc) = none := by
        rw [hp, Option.map_none']
        exact parseIf_fail _ _ ⟨hne, hs⟩
      unfold create_lap
      simp only [h0, Option.none_bind]
      cases parseIf (ex.duration ≠ "")
          ((pyInt ex.duration).map (fun n => Dec.mk n 3)) with
      | none => rfl
      | some tts =>
          cases parseIf (ex.total_calorie ≠ "")
              ((pyFloat ex.total_calorie).map pyRound) with
          | none => rfl
          | some cal => rfl
    · -- unparsable maximum heart rate that passes its (line-125) guard
      have h0 : parseIf (ex.max_heart_rate ≠ "" ∧ ex.mean_heart_rate ≠ "0.0")
          ((pyFloat ex.max_heart_rate).map pyTrunc) = none := by
        rw [hp, Option.map_none']
        exact parseIf_fail _ _ ⟨hne, hs⟩
      unfold create_lap
      simp only [h0, Option.map_none']
      cases parseIf (ex.duration ≠ "")
          ((pyInt ex.duration).map (fun n => Dec.mk n 3)) with
      | none => rfl
      | some tts =>
          cases parseIf (ex.total_calorie ≠ "")
              ((pyFloat ex.total_calorie).map pyRound) with
          | none => rfl
          | some cal =>
              cases parseIf
                  (ex.mean_heart_rate ≠ "" ∧ ex.mean_heart_rate ≠ "0.0")
                  ((pyFloat ex.mean_heart_rate).map pyTrunc) with
              | none => rfl
              | some ahr => rfl
  have hprep : ∀ (locs : String → Option (List LocationEntry))
      (lives : String → Option (List LiveEntry)),
      prepare_exercise_data locs lives ex = PrepResult.error := by
    intro locs lives
    unfold prepare_exercise_data
    rw [hlap, Option.map_none', Option.getD_none]
  refine ⟨hlap, hprep, ?_⟩
  intro locs lives rest hstart
  rw [run_driver, if_neg hstart, hprep locs lives]
  rfl

/-- Claim C9 amended witness: a row whose mean-heart-rate column reads
`"abc"` (non-empty, not the sentinel, unparsable); the lap builder raises,
the row errors and the driver aborts the batch. -/
theorem claim_c9_amended_witness :
    create_lap (timeId "2020-01-01 10:00:00") "60000" "1000.0" "12.4" "abc"
        "180.0" "2.5" "3.0" "80.0" "90.0" = none ∧
    (∀ (locs : String → Option (List LocationEntry))
       (lives : String → Option (List LiveEntry)),
      prepare_exercise_data locs lives
        ⟨"u1", "2020-01-01 10:00:00", "1002", "60000", "1000.0", "12.4",
          "abc", "180.0", "2.5", "3.0", "80.0", "90.0"⟩ = PrepResult.error) ∧
    (∀ (locs : String → Option (List LocationEntry))
       (lives : String → Option (List LiveEntry)) (rest : List Exercise),
      ("2020-01-01 10:00:00" : String) ≠ "" →
      run_driver locs lives
        (⟨"u1", "2020-01-01 10:00:00", "1002", "60000", "1000.0", "12.4",
          "abc", "180.0", "2.5", "3.0", "80.0", "90.0"⟩ :: rest) =
        [DriverEvent.aborted]) :=
  claim_c9_amended
    ⟨"u1", "2020-01-01 10:00:00", "1002", "60000", "1000.0", "12.4",
      "abc", "180.0", "2.5", "3.0", "80.0", "90.0"⟩
    (Or.inr (Or.inr (Or.inl (by decide))))

/-- Claim C8 counterexample: one position fix and one sample with no
timestamp under either key; the merger raises (`none`) instead of skipping
the sample and returning the position-fix timeline. -/
theorem claim_c8_counterexample :
    merge_location_and_live_data [⟨1000, 10, 20, none⟩]
      [{ heart_rate := some 140 }] = none := by
  rfl

/-- Claim C8 amended: a sample with no timestamp under either key makes the
merger raise (a TypeError inside the nearest-timestamp search, or a
ValueError from `min` on an empty sequence), aborting the whole merge, rather
than being skipped while the remaining samples are processed. -/
theorem claim_c8_amended (P : List LocationEntry) (S : List LiveEntry)
    (s : LiveEntry) (hs : s ∈ S) (h : resolve_timestamp s = none) :
    merge_location_and_live_data P S = none := by
  unfold merge_location_and_live_data
  exact live_pass_fail _ s h S _ hs

/-- Claim C8 amended witness: the merge aborts on the second, timestampless
sample even though the first sample is well-formed. -/
theorem claim_c8_amended_witness :
    merge_location_and_live_data [⟨1000, 10, 20, none⟩]
      [{ start_time := some 1000, cadence := some 75 },
       { heart_rate := some 140 }] = none :=
  claim_c8_amended [⟨1000, 10, 20, none⟩]
    [{ start_time := some 1000, cadence := some 75 },
     { heart_rate := some 140 }]
    { heart_rate := some 140 } (by decide) (by decide)

/-- Claim C2 counterexample: two position fixes arriving in descending
timestamp order and no samples; the merger output (what the caller iterates)
keeps the insertion order 2000, 1000 — not ascending. -/
theorem claim_c2_counterexample :
    (merge_location_and_live_data [⟨2000, 5, 6, none⟩, ⟨1000, 1, 2, none⟩]
        []).map dictKeys = some [2000, 1000] ∧
      ¬ List.Sorted (· ≤ ·) ([2000, 1000] : List Int) := by
  constructor
  · rfl
  · intro hsort
    rw [List.sorted_cons] at hsort
    have := hsort.1 1000 (by simp)
    omega

/-- Claim C3: for every entry of a successful merge, a track point is
produced if and only if the entry carries at least one payload field besides
time — every merged entry descends from a position fix and so carries a
position, hence always yields a track point — while an entry holding only a
time field yields none. -/
theorem claim_c3_trackpoint_iff (P : List LocationEntry) (S : List LiveEntry)
    (m : MergedDict) (h : merge_location_and_live_data P S = some m) :
    (∀ p ∈ m,
      ((create_trackpoint p.2).isSome = true ↔ payload_besides_time p.2)) ∧
    (∀ ts : Int, create_trackpoint (bare_time_entry ts) = none) := by
  constructor
  · intro p hp
    obtain ⟨hlat, hlon, halt⟩ := merge_entries_located P S m h p hp
    constructor
    · intro _
      exact Or.inl hlat
    · intro _
      have hpos : trackpoint_position p.2 =
          some (p.2.latitude.getD 0, p.2.longitude.getD 0) := by
        unfold trackpoint_position
        rw [if_pos ⟨halt, hlon⟩]
      have hchild : trackpoint_children p.2 > 1 := by
        unfold trackpoint_children
        rw [hpos]
        simp only [Option.isSome_some, if_true]
        omega
      unfold create_trackpoint
      rw [if_pos hchild]
      rfl
  · intro ts
    rfl

/-- Claim C3 witness: the merge of a single position fix with no samples;
its one entry yields a track point, and a bare time-only entry never does. -/
theorem claim_c3_witness :
    (∀ p ∈ location_pass [⟨1000, 10, 20, some 5⟩],
      ((create_trackpoint p.2).isSome = true ↔ payload_besides_time p.2)) ∧
    (∀ ts : Int, create_trackpoint (bare_time_entry ts) = none) :=
  claim_c3_trackpoint_iff [⟨1000, 10, 20, some 5⟩] []
    (location_pass [⟨1000, 10, 20, some 5⟩]) rfl

/-- Claim C2 amended: when the position-fix series arrives sorted ascending
by timestamp, the merger output the caller iterates is ordered strictly
ascending by timestamp key; for an unsorted series the output keeps the
position-fix insertion order instead (no sort happens before consumption:
see the counterexample). -/
theorem claim_c2_amended (P : List LocationEntry) (S : List LiveEntry)
    (m : MergedDict) (h : merge_location_and_live_data P S = some m)
    (hsorted : List.Sorted (· ≤ ·) (P.map (fun e => e.start_time))) :
    List.Sorted (· < ·) (dictKeys m) := by
  rw [merge_keys P S m h]
  unfold location_pass
  refine location_pass_keys_sorted_aux P [] ?_ hsorted ?_
  · simp [dictKeys]
  · simp [dictKeys]

/-- Claim C2 amended witness: two fixes arriving in ascending order; the
merge keys stay strictly ascending. -/
theorem claim_c2_amended_witness :
    List.Sorted (· < ·)
      (dictKeys (location_pass [⟨1000, 1, 2, none⟩, ⟨2000, 3, 4, none⟩])) :=
  claim_c2_amended [⟨1000, 1, 2, none⟩, ⟨2000, 3, 4, none⟩] []
    (location_pass [⟨1000, 1, 2, none⟩, ⟨2000, 3, 4, none⟩]) rfl (by decide)

/-- Claim C7: an exercise row whose position-fix document is empty or absent
is reported as skipped — no document is emitted for it — and the driver
continues with the remaining rows, given that the row has a start time and
its numeric summary fields parse (so the lap builder, which runs first, does
not raise). -/
theorem claim_c7_skip_missing_telemetry
    (locs : String → Option (List LocationEntry))
    (lives : String → Option (List LiveEntry)) (ex : Exercise)
    (rest : List Exercise)
    (hstart : ex.start_time ≠ "")
    (hlap : (create_lap (timeId ex.start_time) ex.duration ex.distance
      ex.total_calorie ex.mean_heart_rate ex.max_heart_rate ex.mean_speed
      ex.max_speed ex.mean_cadence ex.max_cadence).isSome = true)
    (hloc : fetch_json_data locs ex.datauuid = ([] : List LocationEntry)) :
    prepare_exercise_data locs lives ex = PrepResult.skipped ∧
    run_driver locs lives (ex :: rest) =
      DriverEvent.skippedMissing ex.datauuid :: run_driver locs lives rest := by
  have hprep : prepare_exercise_data locs lives ex = PrepResult.skipped := by
    unfold prepare_exercise_data
    obtain ⟨lap, hlap2⟩ := Option.isSome_iff_exists.mp hlap
    rw [hlap2, Option.map_some', Option.getD_some]
    unfold emit_exercise
    rw [hloc]
    rfl
  refine ⟨hprep, ?_⟩
  rw [run_driver, if_neg hstart, hprep]
  rfl

/-- Claim C7 witness: a well-formed summary row whose telemetry lookup finds
no file; the driver reports the skip and the batch goes on. -/
theorem claim_c7_witness :
    prepare_exercise_data (fun _ => none) (fun _ => none)
        ⟨"u0", "2020-01-01 10:00:00", "1002", "60000", "1000.0", "12.4",
          "150.0", "180.0", "2.5", "3.0", "80.0", "90.0"⟩ =
      PrepResult.skipped ∧
    run_driver (fun _ => none) (fun _ => none)
        [⟨"u0", "2020-01-01 10:00:00", "1002", "60000", "1000.0", "12.4",
          "150.0", "180.0", "2.5", "3.0", "80.0", "90.0"⟩] =
      DriverEvent.skippedMissing "u0" ::
        run_driver (fun _ => none) (fun _ => none) [] :=
  claim_c7_skip_missing_telemetry (fun _ => none) (fun _ => none)
    ⟨"u0", "2020-01-01 10:00:00", "1002", "60000", "1000.0", "12.4",
      "150.0", "180.0", "2.5", "3.0", "80.0", "90.0"⟩ []
    (by decide) (by decide) rfl

/-- Claim C1: with a non-empty position-fix series and samples that all
resolve a timestamp, the merge succeeds, and each sample attaches at the key
`attach_key` selects: a position-fix timestamp that is the exact match when
one exists and otherwise minimises the absolute difference, present in the
final output; the processing step for the sample is exactly an in-place
update of that entry with the sample payload — no sample is dropped for
lacking a match. -/
theorem claim_c1_merge_attaches (P : List LocationEntry) (S : List LiveEntry)
    (hP : P ≠ []) (hS : ∀ s ∈ S, resolve_timestamp s ≠ none) :
    (merge_location_and_live_data P S).isSome = true ∧
    ∀ s ∈ S, ∀ t, resolve_timestamp s = some t →
      (attach_key P t).isSome = true ∧
      ∀ k, attach_key P t = some k →
        k ∈ P.map (fun e => e.start_time) ∧
        (t ∈ P.map (fun e => e.start_time) → k = t) ∧
        (∀ u ∈ P.map (fun e => e.start_time), |k - t| ≤ |u - t|) ∧
        (∀ m, merge_location_and_live_data P S = some m →
          dictContains m k = true) ∧
        (∀ d : MergedDict,
          (∀ x, dictContains d x = true ↔ x ∈ P.map (fun e => e.start_time)) →
          process_live_entry (pySorted (P.map (fun e => e.start_time))) d s =
            some (dictUpdate d k (live_payload s))) := by
  have hPmap : P.map (fun e => e.start_time) ≠ [] := by
    intro hmap
    exact hP (List.map_eq_nil_iff.mp hmap)
  have htsL : pySorted (P.map (fun e => e.start_time)) ≠ [] :=
    pySorted_ne_nil _ hPmap
  have hfinal : ∀ k ∈ P.map (fun e => e.start_time),
      ∀ m, merge_location_and_live_data P S = some m →
        dictContains m k = true := by
    intro k hk m hm
    rw [dictContains_iff, merge_keys P S m hm, mem_dictKeys_location_pass]
    exact hk
  constructor
  · exact live_pass_isSome _ htsL S (location_pass P)
      (location_pass_contains P) hS
  · intro s hs t hst
    by_cases hc : dictContains (location_pass P) t = true
    · have htP : t ∈ P.map (fun e => e.start_time) := by
        rw [dictContains_iff, mem_dictKeys_location_pass] at hc
        exact hc
      have hak : attach_key P t = some t := by
        unfold attach_key attach_target
        rw [if_pos hc]
      refine ⟨by rw [hak]; rfl, ?_⟩
      intro k hk
      rw [hak] at hk
      have hkt : k = t := (Option.some.inj hk).symm
      subst hkt
      refine ⟨htP, fun _ => rfl, ?_, hfinal k htP, ?_⟩
      · intro u hu
        have : |k - k| = 0 := by simp
        rw [this]
        exact abs_nonneg _
      · intro d hK
        unfold process_live_entry
        rw [hst, Option.some_bind]
        unfold attach_target
        rw [if_pos ((hK k).mpr htP), Option.map_some']
        unfold attach_at
        rw [if_pos ((hK k).mpr htP)]
    · have htP : t ∉ P.map (fun e => e.start_time) := by
        intro hmem
        exact hc (by rw [dictContains_iff, mem_dictKeys_location_pass]; exact hmem)
      have hak : attach_key P t =
          find_nearest_time t (pySorted (P.map (fun e => e.start_time))) := by
        unfold attach_key attach_target
        rw [if_neg hc]
      refine ⟨?_, ?_⟩
      · rw [hak]
        exact find_nearest_time_isSome _ _ htsL
      · intro k hk
        rw [hak] at hk
        have hkts : k ∈ pySorted (P.map (fun e => e.start_time)) :=
          find_nearest_time_mem hk
        have hkP : k ∈ P.map (fun e => e.start_time) :=
          (mem_pySorted k _).mp hkts
        refine ⟨hkP, fun hmem => absurd hmem htP, ?_, hfinal k hkP, ?_⟩
        · intro u hu
          exact find_nearest_time_min hk u ((mem_pySorted u _).mpr hu)
        · intro d hK
          unfold process_live_entry
          rw [hst, Option.some_bind]
          unfold attach_target
          have hdt : ¬ dictContains d t = true := fun hX => htP ((hK t).mp hX)
          rw [if_neg hdt, hk, Option.map_some']
          unfold attach_at
          rw [if_pos ((hK k).mpr hkP)]

/-- Claim C1 witness: fixes at 1000 and 3000 and one sample at 2500 with a
heart rate; the sample attaches at 3000, the unique nearest fix. -/
theorem claim_c1_witness :
    (merge_location_and_live_data [⟨1000, 10, 20, none⟩, ⟨3000, 11, 21, none⟩]
        [{ start_time := some 2500, heart_rate := some 140 }]).isSome = true ∧
    ∀ s ∈ [({ start_time := some 2500, heart_rate := some 140 } : LiveEntry)],
      ∀ t, resolve_timestamp s = some t →
        (attach_key [⟨1000, 10, 20, none⟩, ⟨3000, 11, 21, none⟩] t).isSome
            = true ∧
        ∀ k, attach_key [⟨1000, 10, 20, none⟩, ⟨3000, 11, 21, none⟩] t
            = some k →
          k ∈ [⟨1000, 10, 20, none⟩,
            (⟨3000, 11, 21, none⟩ : LocationEntry)].map
              (fun e => e.start_time) ∧
          (t ∈ [⟨1000, 10, 20, none⟩,
            (⟨3000, 11, 21, none⟩ : LocationEntry)].map
              (fun e => e.start_time) → k = t) ∧
          (∀ u ∈ [⟨1000, 10, 20, none⟩,
            (⟨3000, 11, 21, none⟩ : LocationEntry)].map
              (fun e => e.start_time), |k - t| ≤ |u - t|) ∧
          (∀ m, merge_location_and_live_data
              [⟨1000, 10, 20, none⟩, ⟨3000, 11, 21, none⟩]
              [{ start_time := some 2500, heart_rate := some 140 }] = some m →
            dictContains m k = true) ∧
          (∀ d : MergedDict,
            (∀ x, dictContains d x = true ↔
              x ∈ [⟨1000, 10, 20, none⟩,
                (⟨3000, 11, 21, none⟩ : LocationEntry)].map
                  (fun e => e.start_time)) →
            process_live_entry
                (pySorted ([⟨1000, 10, 20, none⟩,
                  (⟨3000, 11, 21, none⟩ : LocationEntry)].map
                    (fun e => e.start_time))) d s =
              some (dictUpdate d k (live_payload s))) :=
  claim_c1_merge_attaches [⟨1000, 10, 20, none⟩, ⟨3000, 11, 21, none⟩]
    [{ start_time := some 2500, heart_rate := some 140 }]
    (by decide) (by decide)

end SamsungExercises
